import Mathlib

/-!
Verification of the `twirest` request-construction and dispatch engine
(`src/twirest/twirest.go`): the reflective mapping from request descriptor
values to (HTTP method, URL, query/body string), the query encoding rules,
the per-variant URL suffix rules, and the response/error decoding contract.

The engine consumes descriptor structs via reflection: each struct field has
a name, a kind (string / []string / bool), a struct tag, and a value.  The
descriptor catalog itself (the struct definitions) is not part of the core
source, so a descriptor is embedded generically as a variant name plus a
list of fields, exactly the view the reflective code takes of it.
-/

namespace Twirest

/-- The API version constant `ApiVer` from the source. -/
def ApiVer : String := "2010-04-01"

/-- The concrete descriptor variant types named in the source's type
switches (`httpRequest`, `queryString`, `urlString`), plus `Queue`.
`Queue` is modelled from the spec: the descriptor catalog (one variant per
resource/action, including a single-queue fetch) is not in the core source
file. -/
inductive Variant where
  | SendMessage | Messages | Message
  | MakeCall | ModifyCall | Calls | Call
  | Accounts | Notifications | DeleteNotification
  | OutgoingCallerIds | UpdateOutgoingCallerId | AddOutgoingCallerId
  | DeleteOutgoingCallerId
  | Recordings | Recording | DeleteRecording
  | UsageRecords
  | CreateQueue | ChangeQueue | DeleteQueue | DeQueue | Queue | QueueMember
  | Conferences | Participants | UpdateParticipant | DeleteParticipant
  | CreateIncomingPhoneNumber | AvailablePhoneNumbers
  deriving DecidableEq, Repr

/-- The value stored in a descriptor field, by reflective kind: a string
field, a `[]string` field, or a bool control flag. -/
inductive FieldVal where
  | str (s : String)
  | strs (l : List String)
  | boolean (b : Bool)
  deriving DecidableEq, Repr

/-- Go's `reflect.Value.String()` on a field: the value itself for string
kinds, and the `<T Value>` placeholder text for other kinds. -/
def FieldVal.goString : FieldVal → String
  | .str s => s
  | .strs _ => "<[]string Value>"
  | .boolean _ => "<bool Value>"

/-- One declared struct field of a descriptor, as reflection sees it:
its name, its struct tag, and its value. -/
structure Field where
  name : String
  tag : String
  val : FieldVal
  deriving DecidableEq, Repr

/-- A request descriptor: its concrete variant type plus its declared
fields in declaration order. -/
structure Descriptor where
  variant : Variant
  fields : List Field
  deriving DecidableEq, Repr

/-- Looking a field name up in the map `m` built by `urlString`
(`m[fld.Name] = [2]string{tag, val}`): the map is filled in declaration
order, a later duplicate name overwriting an earlier one, so lookup finds
the last field with the given name. -/
def lookupField (fields : List Field) (name : String) : Option Field :=
  fields.reverse.find? (fun f => f.name == name)

/-- Field access by name on a concrete descriptor struct (e.g.
`reqSt.GetRecording`).  Modelled from the spec: the descriptor catalog is
not in the core source, so reading a declared field of the variant is a
lookup by field name; a bool field reads as its flag. -/
def Descriptor.getBool (d : Descriptor) (n : String) : Bool :=
  match lookupField d.fields n with
  | some f =>
    match f.val with
    | .boolean b => b
    | _ => false
  | none => false

/-- Field access by name for a string-typed field of a concrete descriptor
struct (e.g. `reqSt.CountryCode`).  Modelled from the spec: the descriptor
catalog is not in the core source, so reading a declared string field is a
lookup by field name. -/
def Descriptor.getStr (d : Descriptor) (n : String) : String :=
  match lookupField d.fields n with
  | some f =>
    match f.val with
    | .str s => s
    | _ => ""
  | none => ""

/-! ### Go's `url.QueryEscape`

`url.QueryEscape` walks the UTF-8 bytes of the string: ASCII letters,
digits and `-`, `_`, `.`, `~` pass through; a space becomes `+`; every
other byte becomes `%` followed by two uppercase hex digits. -/

/-- Bytes `url.QueryEscape` leaves unescaped: ASCII alphanumerics and
`-`, `_`, `.`, `~`. -/
def isUnreservedByte (b : Nat) : Bool :=
  (97 ≤ b && b ≤ 122) || (65 ≤ b && b ≤ 90) || (48 ≤ b && b ≤ 57) ||
    b == 45 || b == 95 || b == 46 || b == 126

/-- Uppercase hexadecimal digit for a value below 16 (Go's
`"0123456789ABCDEF"` table). -/
def hexDigitUpper (n : Nat) : Char :=
  match n % 16 with
  | 0 => '0' | 1 => '1' | 2 => '2' | 3 => '3' | 4 => '4'
  | 5 => '5' | 6 => '6' | 7 => '7' | 8 => '8' | 9 => '9'
  | 10 => 'A' | 11 => 'B' | 12 => 'C' | 13 => 'D' | 14 => 'E'
  | _ => 'F'

/-- The characters `url.QueryEscape` emits for one input byte. -/
def escapeByte (b : Nat) : List Char :=
  if isUnreservedByte b then [Char.ofNat b]
  else if b == 32 then ['+']
  else ['%', hexDigitUpper (b / 16), hexDigitUpper (b % 16)]

/-- Go's `url.QueryEscape`: escape each UTF-8 byte of the string. -/
def queryEscape (s : String) : String :=
  String.mk ((s.data.flatMap String.utf8EncodeChar).flatMap
    (fun b => escapeByte b.toNat))

/-! ### `queryString` -/

/-- The variants enumerated in `queryString`'s type-switch case; every
other variant falls into the empty `default` case. -/
def inQueryCaseList : Variant → Bool
  | .SendMessage | .Messages | .MakeCall | .Calls | .ModifyCall
  | .Accounts | .Notifications | .OutgoingCallerIds | .Recordings
  | .UsageRecords | .CreateQueue | .ChangeQueue | .DeQueue
  | .CreateIncomingPhoneNumber | .Conferences | .Participants
  | .AvailablePhoneNumbers => true
  | _ => false

/-- The text one field contributes to the accumulated query string: a
string field with a non-empty tag and non-empty value contributes
`tag ++ escaped value ++ "&"`; a `[]string` field with a non-empty tag and
a non-empty list contributes that once per element; everything else
contributes nothing. -/
def fieldQuery (f : Field) : String :=
  match f.val with
  | .str s =>
    if f.tag != "" && s != "" then f.tag ++ queryEscape s ++ "&" else ""
  | .strs l =>
    if f.tag != "" && decide (0 < l.length) then
      l.foldl (fun acc v => acc ++ (f.tag ++ queryEscape v ++ "&")) ""
    else ""
  | .boolean _ => ""

/-- `queryString` from the source: for an enumerated variant, fold the
per-field contributions over the fields in declaration order and trim the
trailing separator (`qryStr[:len(qryStr)-1]` drops the final byte, which —
the string being empty or ending in the ASCII `&` every contribution ends
with — is the final character); for any other variant, return the empty
string. -/
def queryString (d : Descriptor) : String :=
  if inQueryCaseList d.variant then
    let qryStr := d.fields.foldl (fun acc f => acc ++ fieldQuery f) ""
    if 0 < qryStr.data.length then String.mk qryStr.data.dropLast else qryStr
  else ""

/-! ### `urlString` -/

/-- The helper `required`: scan the given strings and fail with the
required-field error on the first empty one. -/
def requiredCheck (rs : List String) : Option String :=
  if rs.any (fun s => s == "") then some "required field missing" else none

/-- The generic part of `urlString`, before the variant-specific suffix
switch: start from the API root, the version and `/Accounts`, then append
the `resource`, `Sid`, `subresource` and `CallSid` parts in that order
when the corresponding field is declared; the `Sid` value is checked
non-empty, the error (if any) travelling alongside the URL. -/
def urlPreSuffix (d : Descriptor) (accSid : String) : String × Option String :=
  let url0 := "https://api.twilio.com/" ++ ApiVer ++ "/Accounts"
  let url1 :=
    match lookupField d.fields "resource" with
    | some f => url0 ++ "/" ++ accSid ++ f.tag
    | none => url0
  let p2 : String × Option String :=
    match lookupField d.fields "Sid" with
    | some f => (url1 ++ "/" ++ f.val.goString, requiredCheck [f.val.goString])
    | none => (url1, none)
  let url3 :=
    match lookupField d.fields "subresource" with
    | some f => p2.1 ++ f.tag
    | none => p2.1
  let url4 :=
    match lookupField d.fields "CallSid" with
    | some f => if f.tag == "" then url3 ++ "/" ++ f.val.goString else url3
    | none => url3
  (url4, p2.2)

/-- The variant-specific suffix switch at the end of `urlString`. -/
def applySuffix (d : Descriptor) (url : String) : String :=
  match d.variant with
  | .Recording =>
    let url1 := if !(d.getBool "GetRecording") then url ++ ".json" else url
    if d.getBool "GetRecording" && d.getBool "GetMP3" then url1 ++ ".mp3"
    else url1
  | .AvailablePhoneNumbers =>
    let url1 :=
      if d.getStr "CountryCode" != "" then url ++ "/" ++ d.getStr "CountryCode"
      else url
    if d.getStr "Type" != "" then url1 ++ "/" ++ d.getStr "Type" else url1
  | .Message =>
    if d.getBool "Media" then
      let url1 := url ++ "/Media"
      if d.getStr "MediaSid" != "" then url1 ++ "/" ++ d.getStr "MediaSid"
      else url1
    else url
  | .Call =>
    if d.getBool "Recordings" then url ++ "/Recordings"
    else if d.getBool "Notifications" then url ++ "/Notifications"
    else url
  | .UsageRecords => url ++ "/" ++ d.getStr "SubResource"
  | .QueueMember =>
    if d.getBool "Front" && d.getStr "CallSid" == "" then url ++ "/Front"
    else url
  | .DeQueue =>
    if d.getBool "Front" && d.getStr "CallSid" == "" then url ++ "/Front"
    else url
  | _ => url

/-- `urlString` from the source: the generic path walk followed by the
variant-specific suffix rules, returning the URL together with the
required-field error, if any. -/
def urlString (d : Descriptor) (accSid : String) : String × Option String :=
  let p := urlPreSuffix d accSid
  (applySuffix d p.1, p.2)

/-! ### `httpRequest` (method dispatch and request construction) -/

/-- The HTTP methods the dispatcher can choose. -/
inductive Method where
  | GET | POST | DELETE
  deriving DecidableEq, Repr

/-- The method classification type-switch in `httpRequest`: five deletion
variants map to DELETE, ten creation/mutation variants map to POST, and
the `default` case maps everything else to GET. -/
def httpMethod : Variant → Method
  | .DeleteNotification | .DeleteOutgoingCallerId | .DeleteRecording
  | .DeleteParticipant | .DeleteQueue => .DELETE
  | .SendMessage | .MakeCall | .ModifyCall | .CreateQueue | .ChangeQueue
  | .DeQueue | .UpdateParticipant | .UpdateOutgoingCallerId
  | .CreateIncomingPhoneNumber | .AddOutgoingCallerId => .POST
  | _ => .GET

/-- An outbound HTTP request as `httpRequest` builds it: method, URL, and
body (`none` models the `nil` body of a GET; POST and DELETE carry the
query string as a reader over it). -/
structure HttpRequest where
  method : Method
  url : String
  body : Option String
  deriving DecidableEq, Repr

/-- `httpRequest` from the source: build the URL (failing on a
required-field violation before any request is constructed), encode the
query string, then place it after `?` on the URL for GET, or in the
request body for POST and DELETE. -/
def httpRequest (d : Descriptor) (accountSid : String) :
    Except String HttpRequest :=
  let p := urlString d accountSid
  match p.2 with
  | some e => .error e
  | none =>
    let queryStr := queryString d
    match httpMethod d.variant with
    | .GET =>
      .ok ⟨.GET, if queryStr != "" then p.1 ++ "?" ++ queryStr else p.1, none⟩
    | .DELETE => .ok ⟨.DELETE, p.1, some queryStr⟩
    | .POST => .ok ⟨.POST, p.1, some queryStr⟩

/-! ### Client, response envelope and `Request` -/

/-- `TwilioClient`: the credentials (the transport configuration is held
by the caller-supplied transport function in this model). -/
structure TwilioClient where
  accountSid : String
  authUser : String
  authToken : String
  deriving DecidableEq, Repr

/-- `NewClient` from the source: two arguments are account sid and auth
token; three are account sid, API-key user and API-key token; any other
count is a construction error. -/
def NewClient (authBits : List String) : Except String TwilioClient :=
  if authBits.length ≤ 1 || 3 < authBits.length then
    .error "2 or 3 arguments only"
  else if authBits.length == 2 then
    .ok ⟨authBits.getD 0 "", "", authBits.getD 1 ""⟩
  else
    .ok ⟨authBits.getD 0 "", authBits.getD 1 "", authBits.getD 2 ""⟩

/-- The provider exception payload of a response: numeric code, detail
text and info URL. -/
structure TwiException where
  code : Int
  detail : String
  moreInfo : String
  deriving DecidableEq, Repr

/-- `TwilioResponse.Status`: the HTTP status code of the response and the
provider (Twilio) error code extracted from the exception. -/
structure TwilioStatus where
  http : Nat
  twilio : Int
  deriving DecidableEq, Repr

/-- The response envelope.  Modelled from the spec: the envelope's struct
definition is not in the core source; it holds the status pair and an
optional exception payload (the variant-typed resource payloads it also
carries play no part in the claims and are omitted). -/
structure TwilioResponse where
  status : TwilioStatus
  exception : Option TwiException
  deriving DecidableEq, Repr

/-- The zero-value `TwilioResponse{}`. -/
def emptyResponse : TwilioResponse := ⟨⟨0, 0⟩, none⟩

/-- `exceptionToErr` from the source: an exception payload becomes its
code together with the error text `detail (moreInfo)`; no exception means
code 0 and no error. -/
def exceptionToErr (twir : TwilioResponse) : Int × Option String :=
  match twir.exception with
  | some e => (e.code, some (e.detail ++ " (" ++ e.moreInfo ++ ")"))
  | none => (0, none)

/-- What the transport and XML decoding hand back on success: the HTTP
status code and the decoded exception element, if the body carried one.
Modelled from the spec: the XML decoding (an external library call) fills
the envelope's exception payload and never touches the HTTP status field,
which `Request` sets from the actual response. -/
structure HttpResult where
  statusCode : Nat
  decoded : Option TwiException
  deriving DecidableEq, Repr

/-- `TwilioClient.Request` from the source: build the HTTP request
(returning immediately, transport untouched, if that fails), execute it
through the transport, record the HTTP status code on the envelope, decode
the body, and convert a decoded exception into the returned error. -/
def TwilioClient.Request (twiClient : TwilioClient) (d : Descriptor)
    (transport : HttpRequest → Except String HttpResult) :
    TwilioResponse × Option String :=
  match httpRequest d twiClient.accountSid with
  | .error e => (emptyResponse, some e)
  | .ok httpReq =>
    match transport httpReq with
    | .error e => (emptyResponse, some e)
    | .ok res =>
      let p := exceptionToErr { status := ⟨res.statusCode, 0⟩,
                                exception := res.decoded }
      ({ status := ⟨res.statusCode, p.1⟩, exception := res.decoded }, p.2)

/-! ### Specification-side descriptions

The following definitions follow the spec's wording ("emit `tag` +
percent-encoded value, joined by `&`", "the tag once per element", the
fixed path-segment order) and are compared with the source-translated
functions above. -/

/-- The query entries one field contributes, per the spec: a tagged
non-empty string field contributes one `tag ++ encoded value` entry; a
tagged non-empty `[]string` field contributes one such entry per element
in sequence order; all other fields contribute nothing. -/
def fieldEntries (f : Field) : List String :=
  match f.val with
  | .str s =>
    if f.tag != "" && s != "" then [f.tag ++ queryEscape s] else []
  | .strs l =>
    if f.tag != "" && decide (0 < l.length) then
      l.map (fun v => f.tag ++ queryEscape v)
    else []
  | .boolean _ => []

/-- The emitted query entries of a descriptor, per the spec: the
per-field entries in declaration order for an enumerated variant, nothing
otherwise. -/
def queryEntries (d : Descriptor) : List String :=
  if inQueryCaseList d.variant then d.fields.flatMap fieldEntries else []

/-- Entries joined by `&` with no trailing separator, per the spec. -/
def joinAmp : List String → String
  | [] => ""
  | [e] => e
  | e :: es => e ++ "&" ++ joinAmp es

/-- Every entry followed by `&` (the accumulated shape before the
trailing separator is trimmed). -/
def ampAll : List String → String
  | [] => ""
  | e :: es => e ++ "&" ++ ampAll es

/-- The `resource` path segment, per the spec: `/` + account id + the
resource field's tag, when a resource role is declared. -/
def resourcePart (d : Descriptor) (accSid : String) : String :=
  match lookupField d.fields "resource" with
  | some f => "/" ++ accSid ++ f.tag
  | none => ""

/-- The `Sid` path segment, per the spec: `/` + the Sid value, when a Sid
role is declared. -/
def sidPart (d : Descriptor) : String :=
  match lookupField d.fields "Sid" with
  | some f => "/" ++ f.val.goString
  | none => ""

/-- The `subresource` path segment, per the spec: the subresource field's
tag, when a subresource role is declared. -/
def subresourcePart (d : Descriptor) : String :=
  match lookupField d.fields "subresource" with
  | some f => f.tag
  | none => ""

/-- The `CallSid` path segment, per the spec: `/` + the CallSid value,
when a CallSid role is declared with an empty tag. -/
def callSidPart (d : Descriptor) : String :=
  match lookupField d.fields "CallSid" with
  | some f => if f.tag == "" then "/" ++ f.val.goString else ""
  | none => ""

/-! ### Helper lemmas about the query encoder -/

set_option maxRecDepth 8192 in
/-- No character `url.QueryEscape` emits for a byte is a literal `&` or a
space. -/
lemma escapeByte_ne : ∀ b < 256, ∀ ch ∈ escapeByte b, ch ≠ '&' ∧ ch ≠ ' ' := by
  decide

/-- No character of an escaped value is a literal `&` or a space. -/
lemma queryEscape_ne (v : String) :
    ∀ ch ∈ (queryEscape v).data, ch ≠ '&' ∧ ch ≠ ' ' := by
  intro ch hch
  have hch' : ch ∈ (v.data.flatMap String.utf8EncodeChar).flatMap
      (fun b => escapeByte b.toNat) := hch
  rw [List.mem_flatMap] at hch'
  obtain ⟨b, _, hb⟩ := hch'
  exact escapeByte_ne b.toNat (b.toNat_lt_size) ch hb

/-- `ampAll` splits over list append. -/
lemma ampAll_append (a b : List String) :
    ampAll (a ++ b) = ampAll a ++ ampAll b := by
  induction a with
  | nil => simp [ampAll]
  | cons e es ih => simp [ampAll, ih, String.append_assoc]

/-- The inner element loop of `queryString`, started from any
accumulator, appends one amp-terminated entry per element. -/
lemma foldl_elem_amp (g : String → String) (l : List String) (acc : String) :
    l.foldl (fun a v => a ++ (g v ++ "&")) acc = acc ++ ampAll (l.map g) := by
  induction l generalizing acc with
  | nil => simp [ampAll]
  | cons v vs ih => simp [ampAll, ih, String.append_assoc]

/-- A field's contribution to the accumulated query string is its entry
list, each entry followed by `&`. -/
lemma fieldQuery_eq (f : Field) : fieldQuery f = ampAll (fieldEntries f) := by
  obtain ⟨name, tag, val⟩ := f
  cases val with
  | str s =>
    simp only [fieldQuery, fieldEntries]
    split
    · simp [ampAll]
    · simp [ampAll]
  | strs l =>
    simp only [fieldQuery, fieldEntries]
    split
    · have := foldl_elem_amp (fun v => tag ++ queryEscape v) l ""
      simp only [String.append_assoc] at this ⊢
      rw [this, String.empty_append]
    · simp [ampAll]
  | boolean b => simp [fieldQuery, fieldEntries, ampAll]

/-- The outer field loop of `queryString`, started from any accumulator,
appends the amp-terminated entries of every field in declaration order. -/
lemma foldl_fieldQuery (fields : List Field) (acc : String) :
    fields.foldl (fun a f => a ++ fieldQuery f) acc =
      acc ++ ampAll (fields.flatMap fieldEntries) := by
  induction fields generalizing acc with
  | nil => simp [ampAll]
  | cons f fs ih =>
    rw [List.foldl_cons, ih, List.flatMap_cons, ampAll_append,
      fieldQuery_eq, String.append_assoc]

/-- On a non-empty entry list, the amp-terminated accumulation is the
`&`-join followed by one trailing `&`. -/
lemma ampAll_eq_joinAmp (e : String) (es : List String) :
    ampAll (e :: es) = joinAmp (e :: es) ++ "&" := by
  induction es generalizing e with
  | nil => simp [ampAll, joinAmp]
  | cons e' es' ih =>
    show e ++ "&" ++ ampAll (e' :: es') = joinAmp (e :: e' :: es') ++ "&"
    rw [ih e']
    show _ = e ++ "&" ++ joinAmp (e' :: es') ++ "&"
    rw [String.append_assoc, String.append_assoc, String.append_assoc]

/-- `queryString` computes the `&`-join of the spec-side entry list: the
trailing separator trim leaves exactly the entries joined by `&`. -/
lemma queryString_eq_joinAmp (d : Descriptor) :
    queryString d = joinAmp (queryEntries d) := by
  unfold queryString queryEntries
  by_cases hin : inQueryCaseList d.variant = true
  · simp only [hin, if_true, foldl_fieldQuery, String.empty_append]
    cases h : d.fields.flatMap fieldEntries with
    | nil => simp [ampAll, joinAmp]
    | cons e es =>
      rw [ampAll_eq_joinAmp]
      have hd : (joinAmp (e :: es) ++ "&").data =
          (joinAmp (e :: es)).data ++ ['&'] := by
        rw [String.data_append]
      have hpos : 0 < (joinAmp (e :: es) ++ "&").data.length := by
        rw [hd]; simp
      rw [if_pos hpos]
      apply String.ext
      show (joinAmp (e :: es) ++ "&").data.dropLast = (joinAmp (e :: es)).data
      rw [hd]
      simp
  · simp [hin, joinAmp]

/-! ### Claim theorems -/

/-- C2: the query encoder is total and its output (1) omits every field
that has no query tag or whose value is the empty string, the empty
sequence, or a bool flag, (2) percent-encodes each emitted value, so no
character of an escaped value is a literal `&` or space, (3) equals the
emitted entries joined by `&` with the trailing separator trimmed, and
(4) is the empty string when no field qualifies. -/
theorem queryString_encoding_correct (d : Descriptor) :
    (∀ f : Field, f.tag = "" → fieldEntries f = []) ∧
    (∀ f : Field, f.val = .str "" → fieldEntries f = []) ∧
    (∀ f : Field, f.val = .strs [] → fieldEntries f = []) ∧
    (∀ f : Field, ∀ b, f.val = .boolean b → fieldEntries f = []) ∧
    (∀ v : String, ∀ ch ∈ (queryEscape v).data, ch ≠ '&' ∧ ch ≠ ' ') ∧
    queryString d = joinAmp (queryEntries d) ∧
    (queryEntries d = [] → queryString d = "") := by
  refine ⟨?_, ?_, ?_, ?_, queryEscape_ne, queryString_eq_joinAmp d, ?_⟩
  · intro f h
    obtain ⟨n, t, v⟩ := f
    cases v <;> simp_all [fieldEntries]
  · intro f h
    obtain ⟨n, t, v⟩ := f
    cases v <;> simp_all [fieldEntries]
  · intro f h
    obtain ⟨n, t, v⟩ := f
    cases v <;> simp_all [fieldEntries]
  · intro f b h
    obtain ⟨n, t, v⟩ := f
    cases v <;> simp_all [fieldEntries]
  · intro h
    rw [queryString_eq_joinAmp, h]
    rfl

/-- C2 witness: a concrete descriptor with an untagged field, an
empty-valued field, a `[]string` field and a value needing escaping. -/
theorem queryString_encoding_correct_witness :
    fieldEntries ⟨"Flag", "", .str "x"⟩ = [] ∧
    fieldEntries ⟨"To", "To=", .str ""⟩ = [] ∧
    fieldEntries ⟨"Urls", "Url=", .strs []⟩ = [] ∧
    fieldEntries ⟨"Media", "M=", .boolean true⟩ = [] ∧
    (∀ ch ∈ (queryEscape "a &b").data, ch ≠ '&' ∧ ch ≠ ' ') ∧
    queryString ⟨.SendMessage, [⟨"From", "From=", .str "a &b"⟩]⟩ =
      joinAmp (queryEntries ⟨.SendMessage, [⟨"From", "From=", .str "a &b"⟩]⟩) ∧
    queryString ⟨.SendMessage, [⟨"To", "To=", .str ""⟩]⟩ = "" := by
  obtain ⟨h1, h2, h3, h4, h5, -, -⟩ :=
    queryString_encoding_correct ⟨.SendMessage, []⟩
  obtain ⟨-, -, -, -, -, h6, -⟩ :=
    queryString_encoding_correct ⟨.SendMessage, [⟨"From", "From=", .str "a &b"⟩]⟩
  obtain ⟨-, -, -, -, -, -, h7⟩ :=
    queryString_encoding_correct ⟨.SendMessage, [⟨"To", "To=", .str ""⟩]⟩
  exact ⟨h1 _ rfl, h2 _ rfl, h3 _ rfl, h4 _ true rfl, h5 "a &b", h6,
    h7 (by decide)⟩

/-- C3: a tagged, non-empty `[]string` field emits its tag once per
element, each element percent-encoded, in sequence order, at the field's
position in declaration order. -/
theorem queryString_repeated_field (d : Descriptor) (pre post : List Field)
    (f : Field) (l : List String)
    (hin : inQueryCaseList d.variant = true)
    (hfields : d.fields = pre ++ f :: post)
    (hval : f.val = .strs l) (htag : f.tag ≠ "") (hl : l ≠ []) :
    queryString d =
      joinAmp (pre.flatMap fieldEntries ++
        l.map (fun v => f.tag ++ queryEscape v) ++
        post.flatMap fieldEntries) := by
  rw [queryString_eq_joinAmp]
  unfold queryEntries
  rw [if_pos hin, hfields, List.flatMap_append, List.flatMap_cons]
  have hf : fieldEntries f = l.map (fun v => f.tag ++ queryEscape v) := by
    simp [fieldEntries, hval, htag, List.length_pos.mpr hl]
  rw [hf, ← List.append_assoc]

/-- C3 witness: a two-element media-URL list between two string fields. -/
theorem queryString_repeated_field_witness :
    queryString ⟨.SendMessage,
        [⟨"To", "To=", .str "+1"⟩,
         ⟨"MediaUrls", "MediaUrl=", .strs ["u1", "u 2"]⟩,
         ⟨"From", "From=", .str "+2"⟩]⟩ =
      joinAmp ([⟨"To", "To=", .str "+1"⟩].flatMap fieldEntries ++
        ["u1", "u 2"].map (fun v => "MediaUrl=" ++ queryEscape v) ++
        [⟨"From", "From=", .str "+2"⟩].flatMap fieldEntries) :=
  queryString_repeated_field
    ⟨.SendMessage,
      [⟨"To", "To=", .str "+1"⟩,
       ⟨"MediaUrls", "MediaUrl=", .strs ["u1", "u 2"]⟩,
       ⟨"From", "From=", .str "+2"⟩]⟩
    [⟨"To", "To=", .str "+1"⟩] [⟨"From", "From=", .str "+2"⟩]
    ⟨"MediaUrls", "MediaUrl=", .strs ["u1", "u 2"]⟩ ["u1", "u 2"]
    (by decide) rfl rfl (by decide) (by decide)

/-- C4: the method classification is total: DELETE exactly for the five
deletion variants, POST exactly for the ten creation/mutation variants,
GET for every other variant. -/
theorem httpMethod_total_classification (v : Variant) :
    (httpMethod v = .DELETE ↔
      v ∈ ([.DeleteNotification, .DeleteOutgoingCallerId, .DeleteRecording,
        .DeleteParticipant, .DeleteQueue] : List Variant)) ∧
    (httpMethod v = .POST ↔
      v ∈ ([.SendMessage, .MakeCall, .ModifyCall, .CreateQueue, .ChangeQueue,
        .DeQueue, .UpdateParticipant, .UpdateOutgoingCallerId,
        .CreateIncomingPhoneNumber, .AddOutgoingCallerId] : List Variant)) ∧
    (httpMethod v = .GET ↔
      v ∉ ([.DeleteNotification, .DeleteOutgoingCallerId, .DeleteRecording,
        .DeleteParticipant, .DeleteQueue] : List Variant) ∧
      v ∉ ([.SendMessage, .MakeCall, .ModifyCall, .CreateQueue, .ChangeQueue,
        .DeQueue, .UpdateParticipant, .UpdateOutgoingCallerId,
        .CreateIncomingPhoneNumber, .AddOutgoingCallerId] : List Variant)) := by
  cases v <;> decide

/-- C9: client construction succeeds exactly on two or three credential
arguments; any other arity yields the construction error and no client. -/
theorem newClient_arity (authBits : List String) :
    ((∃ c, NewClient authBits = .ok c) ↔
      authBits.length = 2 ∨ authBits.length = 3) ∧
    (NewClient authBits = .error "2 or 3 arguments only" ↔
      ¬(authBits.length = 2 ∨ authBits.length = 3)) := by
  unfold NewClient
  by_cases h1 : authBits.length ≤ 1 ∨ 3 < authBits.length
  · have hb : (authBits.length ≤ 1 || 3 < authBits.length) = true := by
      simp only [Bool.or_eq_true, decide_eq_true_eq]
      exact h1
    simp only [hb, if_true]
    constructor
    · constructor
      · rintro ⟨c, hc⟩
        exact absurd hc (by simp)
      · intro h
        omega
    · constructor
      · intro _
        omega
      · intro _
        trivial
  · have hb : (authBits.length ≤ 1 || 3 < authBits.length) = false := by
      simp only [Bool.or_eq_false_iff, decide_eq_false_iff_not]
      omega
    simp only [hb, Bool.false_eq_true, if_false]
    by_cases h2 : authBits.length = 2
    · have hb2 : (authBits.length == 2) = true := by simp [h2]
      simp only [hb2, if_true]
      constructor
      · constructor
        · intro _
          exact Or.inl h2
        · intro _
          exact ⟨_, rfl⟩
      · constructor
        · intro hc
          exact absurd hc (by simp)
        · intro h
          omega
    · have hb2 : (authBits.length == 2) = false := by simp [h2]
      simp only [hb2, Bool.false_eq_true, if_false]
      constructor
      · constructor
        · intro _
          right
          omega
        · intro _
          exact ⟨_, rfl⟩
      · constructor
        · intro hc
          exact absurd hc (by simp)
        · intro h
          omega

/-- C1: a declared `Sid` path-role field with an empty value makes URL
building fail with the required-field error, `httpRequest` returns that
error without constructing a request, and `Request` returns it for every
transport — the transport is never consulted. -/
theorem empty_sid_rejected (c : TwilioClient) (d : Descriptor)
    (transport : HttpRequest → Except String HttpResult) (f : Field)
    (hf : lookupField d.fields "Sid" = some f) (hempty : f.val = .str "") :
    httpRequest d c.accountSid = .error "required field missing" ∧
    TwilioClient.Request c d transport =
      (emptyResponse, some "required field missing") := by
  have herr : (urlString d c.accountSid).2 = some "required field missing" := by
    simp [urlString, urlPreSuffix, hf, hempty, requiredCheck, FieldVal.goString]
  have hreq : httpRequest d c.accountSid = .error "required field missing" := by
    simp only [httpRequest, herr]
  exact ⟨hreq, by simp [TwilioClient.Request, hreq]⟩

/-- C1 witness: a message fetch with an empty `Sid`, under a transport
that would fail loudly if it were ever invoked. -/
theorem empty_sid_rejected_witness :
    httpRequest ⟨.Message, [⟨"Sid", "", .str ""⟩]⟩ "AC1" =
        .error "required field missing" ∧
    TwilioClient.Request ⟨"AC1", "", "tok"⟩
        ⟨.Message, [⟨"Sid", "", .str ""⟩]⟩
        (fun _ => .error "transport invoked") =
      (emptyResponse, some "required field missing") :=
  empty_sid_rejected ⟨"AC1", "", "tok"⟩ ⟨.Message, [⟨"Sid", "", .str ""⟩]⟩
    (fun _ => .error "transport invoked") ⟨"Sid", "", .str ""⟩
    (by decide) rfl

/-- C5: on a successfully built request, a GET carries no body and gets
the non-empty query string appended after `?`; a POST or DELETE carries
the query string as its body and its URL is the bare resource URL. -/
theorem query_placement (d : Descriptor) (accSid : String) (req : HttpRequest)
    (hreq : httpRequest d accSid = .ok req) :
    (httpMethod d.variant = .GET →
      req.body = none ∧
      (queryString d ≠ "" →
        req.url = (urlString d accSid).1 ++ "?" ++ queryString d) ∧
      (queryString d = "" → req.url = (urlString d accSid).1)) ∧
    ((httpMethod d.variant = .POST ∨ httpMethod d.variant = .DELETE) →
      req.body = some (queryString d) ∧ req.url = (urlString d accSid).1) := by
  simp only [httpRequest] at hreq
  cases herr : (urlString d accSid).2 with
  | some e =>
    rw [herr] at hreq
    exact absurd hreq (by simp)
  | none =>
    rw [herr] at hreq
    cases hm : httpMethod d.variant <;> rw [hm] at hreq <;>
      simp only [Except.ok.injEq] at hreq <;> subst hreq
    · -- GET
      refine ⟨fun _ => ⟨rfl, ?_, ?_⟩, fun hpd => by simp at hpd⟩
      · intro hne
        have : (queryString d != "") = true := by simpa using hne
        simp [this]
      · intro he
        have : (queryString d != "") = false := by simpa using he
        simp [this]
    · -- POST
      exact ⟨fun hg => by simp at hg, fun _ => ⟨rfl, rfl⟩⟩
    · -- DELETE
      exact ⟨fun hg => by simp at hg, fun _ => ⟨rfl, rfl⟩⟩

/-- C5 witness: a GET with one query field and a POST with one query
field. -/
theorem query_placement_witness :
    ((⟨.GET, "https://api.twilio.com/2010-04-01/Accounts?PageSize=5",
        none⟩ : HttpRequest).body = none ∧
      (⟨.GET, "https://api.twilio.com/2010-04-01/Accounts?PageSize=5",
        none⟩ : HttpRequest).url =
        (urlString ⟨.Accounts, [⟨"PageSize", "PageSize=", .str "5"⟩]⟩
            "AC1").1 ++ "?" ++
          queryString ⟨.Accounts, [⟨"PageSize", "PageSize=", .str "5"⟩]⟩) ∧
    ((⟨.POST, "https://api.twilio.com/2010-04-01/Accounts",
        some "Body=hi"⟩ : HttpRequest).body =
      some (queryString ⟨.SendMessage, [⟨"Body", "Body=", .str "hi"⟩]⟩)) := by
  have hget := query_placement ⟨.Accounts, [⟨"PageSize", "PageSize=", .str "5"⟩]⟩
    "AC1" ⟨.GET, "https://api.twilio.com/2010-04-01/Accounts?PageSize=5", none⟩
    rfl
  have hpost := query_placement ⟨.SendMessage, [⟨"Body", "Body=", .str "hi"⟩]⟩
    "AC1" ⟨.POST, "https://api.twilio.com/2010-04-01/Accounts", some "Body=hi"⟩
    rfl
  exact ⟨⟨(hget.1 rfl).1, (hget.1 rfl).2.1 (by decide)⟩,
    (hpost.2 (Or.inl rfl)).1⟩

/-- C6: the built URL is the fixed API root, the version and `/Accounts`,
followed by the `resource`, `Sid`, `subresource` and `CallSid` path
segments in that order, with the variant-specific suffix rules applied
last; the accompanying error is exactly the `Sid` required-field check. -/
theorem urlString_path_order (d : Descriptor) (accSid : String) :
    urlString d accSid =
      (applySuffix d ("https://api.twilio.com/" ++ ApiVer ++ "/Accounts" ++
          resourcePart d accSid ++ sidPart d ++ subresourcePart d ++
          callSidPart d),
        match lookupField d.fields "Sid" with
        | some f => requiredCheck [f.val.goString]
        | none => none) := by
  unfold urlString urlPreSuffix resourcePart sidPart subresourcePart callSidPart
  cases lookupField d.fields "resource" <;>
    cases lookupField d.fields "Sid" <;>
    cases lookupField d.fields "subresource" <;>
    cases lookupField d.fields "CallSid" <;>
    (try simp only [String.append_assoc, String.append_empty,
      String.empty_append, Prod.mk.injEq]) <;>
    (try split) <;>
    (try simp_all [String.append_assoc])

/-- C7: for the recording-fetch variant, the URL ends in `.json` when the
fetch-audio flag is unset, gets no suffix when fetch-audio is set alone,
and ends in `.mp3` when fetch-audio and the mp3 flag are both set. -/
theorem recording_url_suffix (d : Descriptor) (accSid : String)
    (hv : d.variant = .Recording) :
    (d.getBool "GetRecording" = false →
      (urlString d accSid).1 = (urlPreSuffix d accSid).1 ++ ".json") ∧
    (d.getBool "GetRecording" = true → d.getBool "GetMP3" = false →
      (urlString d accSid).1 = (urlPreSuffix d accSid).1) ∧
    (d.getBool "GetRecording" = true → d.getBool "GetMP3" = true →
      (urlString d accSid).1 = (urlPreSuffix d accSid).1 ++ ".mp3") := by
  refine ⟨?_, ?_, ?_⟩
  · intro h
    simp [urlString, applySuffix, hv, h]
  · intro h h2
    simp [urlString, applySuffix, hv, h, h2]
  · intro h h2
    simp [urlString, applySuffix, hv, h, h2]

/-- C7 witness: a recording fetch in each of the three flag states. -/
theorem recording_url_suffix_witness :
    (urlString ⟨.Recording, [⟨"Sid", "", .str "RE1"⟩,
        ⟨"GetRecording", "", .boolean false⟩]⟩ "AC1").1 =
      (urlPreSuffix ⟨.Recording, [⟨"Sid", "", .str "RE1"⟩,
        ⟨"GetRecording", "", .boolean false⟩]⟩ "AC1").1 ++ ".json" ∧
    (urlString ⟨.Recording, [⟨"GetRecording", "", .boolean true⟩]⟩
        "AC1").1 =
      (urlPreSuffix ⟨.Recording, [⟨"GetRecording", "", .boolean true⟩]⟩
        "AC1").1 ∧
    (urlString ⟨.Recording, [⟨"GetRecording", "", .boolean true⟩,
        ⟨"GetMP3", "", .boolean true⟩]⟩ "AC1").1 =
      (urlPreSuffix ⟨.Recording, [⟨"GetRecording", "", .boolean true⟩,
        ⟨"GetMP3", "", .boolean true⟩]⟩ "AC1").1 ++ ".mp3" :=
  ⟨(recording_url_suffix ⟨.Recording, [⟨"Sid", "", .str "RE1"⟩,
      ⟨"GetRecording", "", .boolean false⟩]⟩ "AC1" rfl).1 (by decide),
   (recording_url_suffix ⟨.Recording, [⟨"GetRecording", "", .boolean true⟩]⟩
      "AC1" rfl).2.1 (by decide) (by decide),
   (recording_url_suffix ⟨.Recording, [⟨"GetRecording", "", .boolean true⟩,
      ⟨"GetMP3", "", .boolean true⟩]⟩ "AC1" rfl).2.2 (by decide) (by decide)⟩

/-- C8: when the transport succeeds, the envelope's HTTP status field
holds the actual status code whether or not an exception is present; a
decoded exception payload yields an error embedding its detail text and
info URL with the provider code surfaced on the envelope's status field,
and no exception yields a nil error. -/
theorem response_exception_decoding (c : TwilioClient) (d : Descriptor)
    (transport : HttpRequest → Except String HttpResult)
    (req : HttpRequest) (res : HttpResult)
    (hreq : httpRequest d c.accountSid = .ok req)
    (hres : transport req = .ok res) :
    (TwilioClient.Request c d transport).1.status.http = res.statusCode ∧
    (∀ e, res.decoded = some e →
      (TwilioClient.Request c d transport).2 =
        some (e.detail ++ " (" ++ e.moreInfo ++ ")") ∧
      (TwilioClient.Request c d transport).1.status.twilio = e.code ∧
      (TwilioClient.Request c d transport).2 ≠ none) ∧
    (res.decoded = none → (TwilioClient.Request c d transport).2 = none) := by
  simp only [TwilioClient.Request, hreq, hres]
  refine ⟨trivial, ?_, ?_⟩
  · intro e he
    simp [exceptionToErr, he]
  · intro he
    simp [exceptionToErr, he]

/-- C8 witness: a 401 response carrying provider exception 20003
"Authentication Error". -/
theorem response_exception_decoding_witness :
    (TwilioClient.Request ⟨"AC1", "", "tok"⟩ ⟨.Accounts, []⟩
        (fun _ => .ok ⟨401, some ⟨20003, "Authentication Error",
          "https://www.example.com/errors"⟩⟩)).1.status.http = 401 ∧
    (TwilioClient.Request ⟨"AC1", "", "tok"⟩ ⟨.Accounts, []⟩
        (fun _ => .ok ⟨401, some ⟨20003, "Authentication Error",
          "https://www.example.com/errors"⟩⟩)).2 =
      some ("Authentication Error" ++ " (" ++
        "https://www.example.com/errors" ++ ")") ∧
    (TwilioClient.Request ⟨"AC1", "", "tok"⟩ ⟨.Accounts, []⟩
        (fun _ => .ok ⟨401, some ⟨20003, "Authentication Error",
          "https://www.example.com/errors"⟩⟩)).1.status.twilio = 20003 := by
  have h := response_exception_decoding ⟨"AC1", "", "tok"⟩ ⟨.Accounts, []⟩
    (fun _ => .ok ⟨401, some ⟨20003, "Authentication Error",
      "https://www.example.com/errors"⟩⟩)
    ⟨.GET, "https://api.twilio.com/" ++ ApiVer ++ "/Accounts", none⟩
    ⟨401, some ⟨20003, "Authentication Error",
      "https://www.example.com/errors"⟩⟩
    rfl rfl
  exact ⟨h.1, (h.2.1 _ rfl).1, (h.2.1 _ rfl).2.1⟩

/-- C10: every variant outside `queryString`'s enumerated case list —
including the single-resource fetch variants and all delete variants —
yields the empty query string whatever its fields hold, so its request
carries no appended query parameters and no form-body payload. -/
theorem queryString_default_empty :
    (∀ v : Variant,
      v ∈ ([.Message, .Call, .Recording, .Queue, .QueueMember,
        .DeleteNotification, .DeleteOutgoingCallerId, .DeleteRecording,
        .DeleteParticipant, .DeleteQueue] : List Variant) →
      inQueryCaseList v = false) ∧
    (∀ d : Descriptor, inQueryCaseList d.variant = false →
      queryString d = "" ∧
      ∀ accSid req, httpRequest d accSid = .ok req →
        req.url = (urlString d accSid).1 ∧
        (req.body = none ∨ req.body = some "")) := by
  constructor
  · decide
  · intro d hd
    have hq : queryString d = "" := by
      simp [queryString, hd]
    refine ⟨hq, ?_⟩
    intro accSid req hreq
    simp only [httpRequest] at hreq
    cases herr : (urlString d accSid).2 with
    | some e =>
      rw [herr] at hreq
      exact absurd hreq (by simp)
    | none =>
      rw [herr] at hreq
      cases hm : httpMethod d.variant <;> rw [hm] at hreq <;>
        simp only [Except.ok.injEq] at hreq <;> subst hreq
      · exact ⟨by simp [hq], Or.inl rfl⟩
      · exact ⟨rfl, Or.inr (by simp [hq])⟩
      · exact ⟨rfl, Or.inr (by simp [hq])⟩

/-- C10 witness: a single-recording fetch with a tagged, populated field
still produces an empty query string and a bare GET. -/
theorem queryString_default_empty_witness :
    inQueryCaseList .Recording = false ∧
    queryString ⟨.Recording, [⟨"PageSize", "PageSize=", .str "9"⟩,
      ⟨"Sid", "", .str "RE1"⟩]⟩ = "" ∧
    queryString ⟨.DeleteQueue, [⟨"PageSize", "PageSize=", .str "9"⟩,
      ⟨"Sid", "", .str "QU1"⟩]⟩ = "" := by
  have h1 := queryString_default_empty.1 .Recording (by decide)
  have h2 := (queryString_default_empty.2
    ⟨.Recording, [⟨"PageSize", "PageSize=", .str "9"⟩,
      ⟨"Sid", "", .str "RE1"⟩]⟩ (by decide)).1
  have h3 := (queryString_default_empty.2
    ⟨.DeleteQueue, [⟨"PageSize", "PageSize=", .str "9"⟩,
      ⟨"Sid", "", .str "QU1"⟩]⟩ (by decide)).1
  exact ⟨h1, h2, h3⟩

end Twirest
